import Mathlib

/-! Formal model of the mmm pricing / fee / escrow utility routines from
    src/programs/mmm/src/util.rs, shallowly embedded over Nat and Int with
    explicit 64-bit and 128-bit overflow checks mirroring Rust's checked
    arithmetic. Numeric constants living in constants.rs (MAX_TOTAL_PRICE,
    MAX_REFERRAL_FEE_BP, MIN_SOL_ESCROW_BALANCE_BP,
    MAX_METADATA_CREATOR_ROYALTY_BP) are not part of the given sources, so
    the modelled routines take them as explicit parameters. -/

/-- Error codes surfaced by the modelled routines: the MMMErrorCode variants
    used in util.rs together with the anchor-level error codes that
    check_allowlists_for_mint can raise, and the runtime error raised by
    next_account_info when the account list is exhausted. -/
inductive MMMError where
  | NumericOverflow
  | InvalidCurveType
  | InvalidCurveDelta
  | InvalidAllowLists
  | InvalidMakerOrTakerFeeBP
  | NotEnoughBalance
  | InvalidMetadataCreatorRoyalty
  | InvalidCreatorAddress
  | UnexpectedMetadataUri
  | InvalidMasterEdition
  | AccountOwnedByWrongProgram
  | ConstraintSeeds
  | NotEnoughAccountKeys
  deriving DecidableEq, Repr

deriving instance DecidableEq for Except

/-- Result type of the modelled fallible routines. -/
abbrev MMMResult (α : Type) := Except MMMError α

def U64_MOD : Nat := 2 ^ 64

def U128_MOD : Nat := 2 ^ 128

/-- Rust truncating cast from u128 to u64 (the source's `as u64`). -/
def u64cast (a : Nat) : Nat := a % U64_MOD

/-- Rust u64::checked_mul followed by ok_or(NumericOverflow). -/
def u64_checked_mul (a b : Nat) : MMMResult Nat :=
  if a * b < U64_MOD then .ok (a * b) else .error .NumericOverflow

/-- Rust u64::checked_add followed by ok_or(NumericOverflow). -/
def u64_checked_add (a b : Nat) : MMMResult Nat :=
  if a + b < U64_MOD then .ok (a + b) else .error .NumericOverflow

/-- Rust u64::checked_sub followed by ok_or(NumericOverflow). -/
def u64_checked_sub (a b : Nat) : MMMResult Nat :=
  if b ≤ a then .ok (a - b) else .error .NumericOverflow

/-- Rust u64::checked_div followed by ok_or(NumericOverflow). -/
def u64_checked_div (a b : Nat) : MMMResult Nat :=
  if b = 0 then .error .NumericOverflow else .ok (a / b)

/-- Rust u128::checked_mul followed by ok_or(NumericOverflow). -/
def u128_checked_mul (a b : Nat) : MMMResult Nat :=
  if a * b < U128_MOD then .ok (a * b) else .error .NumericOverflow

/-- Rust u128::checked_add followed by ok_or(NumericOverflow). -/
def u128_checked_add (a b : Nat) : MMMResult Nat :=
  if a + b < U128_MOD then .ok (a + b) else .error .NumericOverflow

/-- Rust u128::checked_div followed by ok_or(NumericOverflow). -/
def u128_checked_div (a b : Nat) : MMMResult Nat :=
  if b = 0 then .error .NumericOverflow else .ok (a / b)

/-- Modelled from the spec: curve kind tags. state.rs is not part of the
    given sources; check_curve in util.rs documents 0 = linear and
    1 = exponential. -/
def CURVE_KIND_LINEAR : Nat := 0

/-- Modelled from the spec: exponential curve kind tag. -/
def CURVE_KIND_EXP : Nat := 1

/-- Modelled from the spec: the Pool account state (state.rs is not part of
    the given sources); fields follow the spec's DATA MODEL section. Account
    keys are modelled as Nat, with 0 the default (unset) key, so the pool's
    shared-escrow flag is `shared_escrow_account != 0`. -/
structure Pool where
  spot_price : Nat
  curve_type : Nat
  curve_delta : Nat
  lp_fee_bp : Nat
  sellside_asset_amount : Nat
  buyside_payment_amount : Nat
  reinvest_fulfill_sell : Bool
  shared_escrow_account : Nat
  shared_escrow_count : Nat
  deriving DecidableEq, Repr

/-- Modelled from the spec: whether buy-side funds live in an external shared
    escrow (the pool's shared-escrow flag). -/
def Pool.using_shared_escrow (p : Pool) : Bool :=
  p.shared_escrow_account != 0

/-- check_curve from util.rs: only curve types 0 (linear) and 1 (exp) are
    allowed, and an exp curve delta must be a basis-point value ≤ 10000. -/
def check_curve (curve_type curve_delta : Nat) : MMMResult Unit :=
  if curve_type > 1 then .error .InvalidCurveType
  else if curve_type = 1 ∧ curve_delta > 10000 then .error .InvalidCurveDelta
  else .ok ()

/-- The buy-fulfillment exponential loop of get_sol_total_price_and_next_price:
    n iterations; each adds the current price (cast to u64) to the running
    total and then divides the u128 current price by (delta+10000)/10000. -/
def exp_buy_loop (delta : Nat) : Nat → Nat × Nat → MMMResult (Nat × Nat)
  | 0, st => .ok st
  | k + 1, (total_price, curr_price) => do
    let total' ← u64_checked_add total_price (u64cast curr_price)
    let num ← u128_checked_mul curr_price 10000
    let den ← u128_checked_add delta 10000
    let curr' ← u128_checked_div num den
    exp_buy_loop delta k (total', curr')

/-- The sell-fulfillment exponential loop of get_sol_total_price_and_next_price:
    n iterations; each first multiplies the u128 current price by
    (delta+10000)/10000 and then adds it (cast to u64) to the running total. -/
def exp_sell_loop (delta : Nat) : Nat → Nat × Nat → MMMResult (Nat × Nat)
  | 0, st => .ok st
  | k + 1, (total_price, curr_price) => do
    let den ← u128_checked_add delta 10000
    let num ← u128_checked_mul curr_price den
    let curr' ← u128_checked_div num 10000
    let total' ← u64_checked_add total_price (u64cast curr')
    exp_sell_loop delta k (total', curr')

/-- The curve-dispatch body of get_sol_total_price_and_next_price (the value
    bound to `ret` in util.rs, before the zero / ceiling post-checks). -/
def get_sol_total_price_and_next_price_inner (pool : Pool) (n : Nat)
    (fulfill_buy : Bool) : MMMResult (Nat × Nat) :=
  let p := pool.spot_price
  let delta := pool.curve_delta
  match fulfill_buy with
  | true =>
    if pool.curve_type = CURVE_KIND_LINEAR then do
      let p2 ← u64_checked_mul p 2
      let nm1 ← u64_checked_sub n 1
      let dstep ← u64_checked_mul nm1 delta
      let base ← u64_checked_sub p2 dstep
      let tp ← u64_checked_mul n base
      let total_price ← u64_checked_div tp 2
      let nd ← u64_checked_mul n delta
      let final_price ← u64_checked_sub p nd
      .ok (total_price, final_price)
    else if pool.curve_type = CURVE_KIND_EXP then do
      let (total_price, curr_price) ← exp_buy_loop delta n (0, p)
      .ok (total_price, u64cast curr_price)
    else .error .InvalidCurveType
  | false =>
    if pool.curve_type = CURVE_KIND_LINEAR then do
      let p2 ← u64_checked_mul p 2
      let np1 ← u64_checked_add n 1
      let dstep ← u64_checked_mul np1 delta
      let base ← u64_checked_add p2 dstep
      let tp ← u64_checked_mul n base
      let total_price ← u64_checked_div tp 2
      let nd ← u64_checked_mul n delta
      let final_price ← u64_checked_add p nd
      .ok (total_price, final_price)
    else if pool.curve_type = CURVE_KIND_EXP then do
      let (total_price, curr_price) ← exp_sell_loop delta n (0, p)
      .ok (total_price, u64cast curr_price)
    else .error .InvalidCurveType

/-- get_sol_total_price_and_next_price from util.rs. `maxTotalPrice` stands
    for the constant MAX_TOTAL_PRICE from constants.rs (not part of the given
    sources): a computed total of 0 or above the ceiling is rejected as
    NumericOverflow. -/
def get_sol_total_price_and_next_price (maxTotalPrice : Nat) (pool : Pool)
    (n : Nat) (fulfill_buy : Bool) : MMMResult (Nat × Nat) :=
  match get_sol_total_price_and_next_price_inner pool n fulfill_buy with
  | .ok (total_price, final_price) =>
    if total_price = 0 then .error .NumericOverflow
    else if total_price > maxTotalPrice then .error .NumericOverflow
    else .ok (total_price, final_price)
  | .error e => .error e

/-- assert_valid_fees_bp from util.rs, with `bound` standing for the constant
    MAX_REFERRAL_FEE_BP from constants.rs (not part of the given sources).
    The i16 fee values are modelled as Int; the unchecked i16 sum is exact as
    long as the bound is at most 16383, which each theorem assumes. -/
def assert_valid_fees_bp (bound maker_fee_bp taker_fee_bp : Int) :
    MMMResult Unit :=
  if ¬(0 ≤ taker_fee_bp ∧ taker_fee_bp ≤ bound) then
    .error .InvalidMakerOrTakerFeeBP
  else if ¬(-bound ≤ maker_fee_bp ∧ maker_fee_bp ≤ bound) then
    .error .InvalidMakerOrTakerFeeBP
  else if ¬(0 ≤ maker_fee_bp + taker_fee_bp ∧ maker_fee_bp + taker_fee_bp ≤ bound) then
    .error .InvalidMakerOrTakerFeeBP
  else .ok ()

/-- A creator entry of the asset metadata (mpl-token-metadata Creator). -/
structure Creator where
  address : Nat
  verified : Bool
  share : Nat
  deriving DecidableEq, Repr

/-- The verified-collection entry of the asset metadata. -/
structure MplCollection where
  verified : Bool
  key : Nat
  deriving DecidableEq, Repr

/-- The slice of the mpl-token-metadata Metadata account that util.rs reads:
    creators, seller fee basis points, uri and collection. -/
structure Metadata where
  creators : Option (List Creator)
  seller_fee_basis_points : Nat
  uri : String
  collection : Option MplCollection
  deriving DecidableEq, Repr

/-- A creator account passed to pay_creator_fees_in_sol: its key and its
    current lamports balance. -/
structure CreatorAccount where
  key : Nat
  lamports : Nat
  deriving DecidableEq, Repr

/-- The royalty amount computed at the top of pay_creator_fees_in_sol:
    total_price * royalty_bp / 10000 * buyside_creator_royalty_bp / 10000 in
    u128 arithmetic, truncated by the source's `as u64` cast. -/
def royaltyAmount (total_price metadata_royalty_bp buyside_creator_royalty_bp : Nat) : Nat :=
  u64cast (total_price * metadata_royalty_bp / 10000 * buyside_creator_royalty_bp / 10000)

/-- A transfer performed through the system program: destination key and
    lamports amount. -/
structure SolTransfer where
  dest : Nat
  amount : Nat
  deriving DecidableEq, Repr

/-- The creator loop of pay_creator_fees_in_sol: each creator but the last is
    assigned royalty * share / 100 (u128 math truncated to u64); the last is
    assigned the remainder royalty - total_royalty. The account at the same
    position must carry the creator's address; a positive fee is transferred
    only when it lifts the account above min_rent, and transferred fees
    accumulate into total_royalty. Returns the total and the transfers. -/
def pay_creator_fees_loop (royalty min_rent : Nat) :
    List Creator → List CreatorAccount → Nat → List SolTransfer →
    MMMResult (Nat × List SolTransfer)
  | [], _, total_royalty, txs => .ok (total_royalty, txs)
  | creator :: rest, accounts, total_royalty, txs => do
    let creator_fee ←
      if rest.isEmpty then
        u64_checked_sub royalty total_royalty
      else do
        let prod ← u128_checked_mul royalty creator.share
        let q ← u128_checked_div prod 100
        pure (u64cast q)
    match accounts with
    | [] => .error .NotEnoughAccountKeys
    | acct :: accounts_rest =>
      if creator.address ≠ acct.key then .error .InvalidCreatorAddress
      else
        if 0 < creator_fee then do
          let lifted ← u64_checked_add acct.lamports creator_fee
          if min_rent < lifted then do
            let total' ← u64_checked_add total_royalty creator_fee
            pay_creator_fees_loop royalty min_rent rest accounts_rest total'
              (txs ++ [⟨acct.key, creator_fee⟩])
          else
            pay_creator_fees_loop royalty min_rent rest accounts_rest total_royalty txs
        else
          pay_creator_fees_loop royalty min_rent rest accounts_rest total_royalty txs

/-- pay_creator_fees_in_sol from util.rs. `min_rent` stands for the runtime's
    Rent::minimum_balance(0) and `maxMetadataCreatorRoyaltyBp` for the
    constant MAX_METADATA_CREATOR_ROYALTY_BP from constants.rs (not part of
    the given sources). The payer is identified by its lamports balance; the
    system-program transfers are returned alongside the total royalty paid. -/
def pay_creator_fees_in_sol (min_rent maxMetadataCreatorRoyaltyBp : Nat)
    (buyside_creator_royalty_bp total_price : Nat) (parsed_metadata : Metadata)
    (creator_accounts : List CreatorAccount) (payer_lamports : Nat)
    (metadata_royalty_bp : Nat) : MMMResult (Nat × List SolTransfer) := do
  let royalty ←
    (do
      let a ← u128_checked_mul total_price metadata_royalty_bp
      let b ← u128_checked_div a 10000
      let c ← u128_checked_mul b buyside_creator_royalty_bp
      let d ← u128_checked_div c 10000
      pure (u64cast d))
  if royalty = 0 then
    .ok (0, [])
  else
    match parsed_metadata.creators with
    | none => .ok (0, [])
    | some creators =>
      if payer_lamports < royalty then .error .NotEnoughBalance
      else if maxMetadataCreatorRoyaltyBp < parsed_metadata.seller_fee_basis_points then
        .error .InvalidMetadataCreatorRoyalty
      else
        pay_creator_fees_loop royalty min_rent creators creator_accounts 0 []

/-- The account-level state of a pool: its (modelled) data and its lamports. -/
structure PoolAccount where
  data : Pool
  lamports : Nat
  deriving DecidableEq, Repr

/-- The all-zero pool data written by try_close_pool's copy_from_slice of
    zeros over the account data. -/
def Pool.zeroed : Pool :=
  ⟨0, 0, 0, 0, 0, 0, false, 0, 0⟩

/-- try_close_pool from util.rs: a no-op unless the pool's inventory and
    payment amounts are zero and, when a shared escrow is used, its count is
    zero; then the account data is zeroed and the whole balance moves to the
    owner. The source's checked_add(...).unwrap() panic is modelled as none. -/
def try_close_pool (ps : PoolAccount) (owner_lamports : Nat) :
    Option (PoolAccount × Nat) :=
  if ps.data.sellside_asset_amount ≠ 0 then some (ps, owner_lamports)
  else if ps.data.buyside_payment_amount ≠ 0 then some (ps, owner_lamports)
  else if ps.data.using_shared_escrow ∧ ps.data.shared_escrow_count ≠ 0 then
    some (ps, owner_lamports)
  else
    if owner_lamports + ps.lamports < U64_MOD then
      some (⟨Pool.zeroed, 0⟩, owner_lamports + ps.lamports)
    else
      none

/-- try_close_escrow from util.rs. `minSolEscrowBalanceBp` stands for the
    constant MIN_SOL_ESCROW_BALANCE_BP from constants.rs (not part of the
    given sources) and `min_rent` for Rent::minimum_balance(0). Returns the
    escrow balance after the call and the amount swept back into the pool. -/
def try_close_escrow (min_rent minSolEscrowBalanceBp : Nat)
    (escrow_lamports : Nat) (pool : Pool) : MMMResult (Nat × Nat) := do
  let min_escrow_balance ←
    if pool.reinvest_fulfill_sell ∧ pool.sellside_asset_amount > 0 then
      pure min_rent
    else do
      let a ← u128_checked_mul pool.spot_price minSolEscrowBalanceBp
      let b ← u128_checked_div a 10000
      if b < U64_MOD then pure b else .error .NumericOverflow
  if escrow_lamports = 0 ∨ escrow_lamports > max min_rent min_escrow_balance then
    .ok (escrow_lamports, 0)
  else
    .ok (0, escrow_lamports)

/-- Modelled from the spec: allowlist kind tags (state.rs, which numbers
    them, is not part of the given sources; the spec lists the kinds Empty,
    Any, FirstVerifiedCreator, Mint, VerifiedCollection, Metadata, Group).
    Only their distinctness matters to the modelled routines. -/
def ALLOWLIST_KIND_EMPTY : Nat := 0

/-- Modelled from the spec: the Any allowlist kind. -/
def ALLOWLIST_KIND_ANY : Nat := 1

/-- Modelled from the spec: the FirstVerifiedCreator allowlist kind. -/
def ALLOWLIST_KIND_FVCA : Nat := 2

/-- Modelled from the spec: the Mint allowlist kind. -/
def ALLOWLIST_KIND_MINT : Nat := 3

/-- Modelled from the spec: the VerifiedCollection allowlist kind. -/
def ALLOWLIST_KIND_MCC : Nat := 4

/-- Modelled from the spec: the Metadata allowlist kind. -/
def ALLOWLIST_KIND_METADATA : Nat := 5

/-- Modelled from the spec: the Group allowlist kind (only recognized by the
    extension-based checker, so check_allowlists_for_mint treats it as an
    unknown kind). -/
def ALLOWLIST_KIND_GROUP : Nat := 6

/-- An allowlist entry: a kind tag and a key value. -/
structure Allowlist where
  kind : Nat
  value : Nat
  deriving DecidableEq, Repr

/-- The master-edition account data that check_allowlists_for_mint inspects:
    its key, its canonical PDA for the mint, whether its data is empty, its
    owner and its version byte. -/
structure MasterEditionInfo where
  key : Nat
  pda : Nat
  data_empty : Bool
  owner : Nat
  version : Nat
  deriving DecidableEq, Repr

/-- The inputs check_allowlists_for_mint reads from the ledger: the mint key,
    the metadata account's owner and key, the canonical metadata PDA for the
    mint (derivation is an external collaborator, so the derived key is an
    input), the deserialized metadata, and the optional master edition. -/
structure MintCheckCtx where
  mint_key : Nat
  metadata_owner : Nat
  metadata_key : Nat
  metadata_pda : Nat
  parsed_metadata : Metadata
  master_edition : Option MasterEditionInfo
  deriving DecidableEq, Repr

/-- The entry-matching loop of check_allowlists_for_mint: union semantics,
    first match wins; Empty and Metadata entries are skipped; a kind the
    legacy checker does not recognize fails immediately; exhaustion fails
    with InvalidAllowLists. -/
def check_allowlists_loop (mint_key : Nat) (parsed_metadata : Metadata) :
    List Allowlist → MMMResult Metadata
  | [] => .error .InvalidAllowLists
  | al :: rest =>
    if al.kind = ALLOWLIST_KIND_EMPTY then
      check_allowlists_loop mint_key parsed_metadata rest
    else if al.kind = ALLOWLIST_KIND_ANY then
      .ok parsed_metadata
    else if al.kind = ALLOWLIST_KIND_FVCA then
      match parsed_metadata.creators with
      | some creators =>
        match creators with
        | [] => check_allowlists_loop mint_key parsed_metadata rest
        | c0 :: _ =>
          if c0.address = al.value ∧ c0.verified then .ok parsed_metadata
          else check_allowlists_loop mint_key parsed_metadata rest
      | none => check_allowlists_loop mint_key parsed_metadata rest
    else if al.kind = ALLOWLIST_KIND_MINT then
      if mint_key = al.value then .ok parsed_metadata
      else check_allowlists_loop mint_key parsed_metadata rest
    else if al.kind = ALLOWLIST_KIND_MCC then
      match parsed_metadata.collection with
      | some collection_data =>
        if collection_data.key = al.value ∧ collection_data.verified then
          .ok parsed_metadata
        else check_allowlists_loop mint_key parsed_metadata rest
      | none => check_allowlists_loop mint_key parsed_metadata rest
    else if al.kind = ALLOWLIST_KIND_METADATA then
      check_allowlists_loop mint_key parsed_metadata rest
    else .error .InvalidAllowLists

/-- The master-edition validation of check_allowlists_for_mint: the master
    edition, when supplied, must sit at its canonical PDA and, when its data
    is non-empty, be owned by the metadata program and carry version 2 or 6. -/
def master_edition_check (mplId : Nat) (me_opt : Option MasterEditionInfo) :
    MMMResult Unit :=
  match me_opt with
  | none => .ok ()
  | some me =>
    if me.pda ≠ me.key then .error .ConstraintSeeds
    else if ¬me.data_empty then
      if me.owner ≠ mplId then .error .AccountOwnedByWrongProgram
      else if ¬(me.version = 2 ∨ me.version = 6) then
        .error .InvalidMasterEdition
      else .ok ()
    else .ok ()

/-- The URI validation of check_allowlists_for_mint: only when some allowlist
    entry has the Metadata kind and an auxiliary key was supplied, the
    trimmed metadata URI must start with that key. -/
def metadata_uri_check (allowlists : List Allowlist) (uri : String)
    (allowlist_aux : Option String) : MMMResult Unit :=
  if allowlists.any (fun val => val.kind == ALLOWLIST_KIND_METADATA) then
    match allowlist_aux with
    | some aux_key =>
      if ¬(uri.trim.startsWith aux_key) then .error .UnexpectedMetadataUri
      else .ok ()
    | none => .ok ()
  else .ok ()

/-- check_allowlists_for_mint from util.rs (the legacy-metadata checker).
    `mplId` is the mpl-token-metadata program id (an external constant). -/
def check_allowlists_for_mint (mplId : Nat) (allowlists : List Allowlist)
    (ctx : MintCheckCtx) (allowlist_aux : Option String) : MMMResult Metadata :=
  if ctx.metadata_owner ≠ mplId then .error .AccountOwnedByWrongProgram
  else if ctx.metadata_pda ≠ ctx.metadata_key then .error .ConstraintSeeds
  else
    match master_edition_check mplId ctx.master_edition with
    | .error e => .error e
    | .ok _ =>
      match metadata_uri_check allowlists ctx.parsed_metadata.uri allowlist_aux with
      | .error e => .error e
      | .ok _ => check_allowlists_loop ctx.mint_key ctx.parsed_metadata allowlists

/-- The pre-loop (structural) checks of check_allowlists_for_mint, as a
    predicate on the context: correct metadata owner, correct metadata PDA
    and a valid master edition when one is supplied. -/
def structuralOk (mplId : Nat) (ctx : MintCheckCtx) : Prop :=
  ctx.metadata_owner = mplId ∧ ctx.metadata_pda = ctx.metadata_key ∧
  (match ctx.master_edition with
   | none => True
   | some me =>
     me.pda = me.key ∧
     (me.data_empty = false → me.owner = mplId ∧ (me.version = 2 ∨ me.version = 6)))

/-- The pure per-unit price step of the exponential buy loop:
    curr * 10000 / (delta + 10000) with floor division. Under the loop's
    overflow checks this is exactly how curr_price evolves. -/
def expBuyStep (delta curr : Nat) : Nat :=
  curr * 10000 / (delta + 10000)

/-- The pure per-unit price step of the exponential sell loop:
    curr * (delta + 10000) / 10000 with floor division. -/
def expSellStep (delta curr : Nat) : Nat :=
  curr * (delta + 10000) / 10000

/-- The sequence of per-unit prices accumulated by the exponential buy loop
    for n units starting at spot price p: the spot price and its first n - 1
    decayed iterates. -/
def expBuyPrices (delta p n : Nat) : List Nat :=
  (List.range n).map (fun k => (expBuyStep delta)^[k] p)

/-- The sequence of per-unit prices accumulated by the exponential sell loop
    for n units starting at spot price p: the first n stepped-up iterates
    (the first unit is already one step above spot). -/
def expSellPrices (delta p n : Nat) : List Nat :=
  (List.range n).map (fun k => (expSellStep delta)^[k + 1] p)

/-- The fee each creator is assigned by the pay_creator_fees_in_sol loop when
    every payment clears the rent floor: royalty * share / 100 (truncated to
    u64) for every creator but the last, and the remainder
    royalty - paid-so-far for the last. -/
def proRataFees (royalty : Nat) : Nat → List Creator → List Nat
  | _, [] => []
  | paid, [_] => [royalty - paid]
  | paid, c :: c2 :: rest =>
    let f := u64cast (royalty * c.share / 100)
    f :: proRataFees royalty (paid + f) (c2 :: rest)

/-- A sample linear pool used by the concrete witnesses: spot price 1000,
    curve delta 10. -/
def samplePool : Pool :=
  ⟨1000, 0, 10, 0, 5, 0, false, 0, 0⟩

/-- A sample linear pool with curve delta 0, which check_curve accepts. -/
def flatPool : Pool :=
  ⟨1000, 0, 0, 0, 5, 0, false, 0, 0⟩

theorem mmmResult_bind_ok {α β : Type} {x : MMMResult α} {f : α → MMMResult β}
    {r : β} (h : (x >>= f) = .ok r) : ∃ a, x = .ok a ∧ f a = .ok r := by
  cases x with
  | ok a => exact ⟨a, rfl, h⟩
  | error e => simp [Bind.bind, Except.bind] at h

theorem u64_checked_mul_ok {a b c : Nat} :
    u64_checked_mul a b = .ok c ↔ a * b < U64_MOD ∧ c = a * b := by
  unfold u64_checked_mul
  split_ifs with hab
  · constructor
    · intro h; cases h; exact ⟨hab, rfl⟩
    · rintro ⟨-, rfl⟩; rfl
  · constructor
    · intro h; cases h
    · rintro ⟨hab', -⟩; exact absurd hab' hab

theorem u64_checked_add_ok {a b c : Nat} :
    u64_checked_add a b = .ok c ↔ a + b < U64_MOD ∧ c = a + b := by
  unfold u64_checked_add
  split_ifs with hab
  · constructor
    · intro h; cases h; exact ⟨hab, rfl⟩
    · rintro ⟨-, rfl⟩; rfl
  · constructor
    · intro h; cases h
    · rintro ⟨hab', -⟩; exact absurd hab' hab

theorem u64_checked_sub_ok {a b c : Nat} :
    u64_checked_sub a b = .ok c ↔ b ≤ a ∧ c = a - b := by
  unfold u64_checked_sub
  split_ifs with hab
  · constructor
    · intro h; cases h; exact ⟨hab, rfl⟩
    · rintro ⟨-, rfl⟩; rfl
  · constructor
    · intro h; cases h
    · rintro ⟨hab', -⟩; exact absurd hab' hab

theorem u64_checked_div_ok {a b c : Nat} :
    u64_checked_div a b = .ok c ↔ b ≠ 0 ∧ c = a / b := by
  unfold u64_checked_div
  split_ifs with hb
  · subst hb
    constructor
    · intro h; cases h
    · rintro ⟨hb', -⟩; exact absurd rfl hb'
  · constructor
    · intro h; cases h; exact ⟨hb, rfl⟩
    · rintro ⟨-, rfl⟩; rfl

theorem u128_checked_mul_ok {a b c : Nat} :
    u128_checked_mul a b = .ok c ↔ a * b < U128_MOD ∧ c = a * b := by
  unfold u128_checked_mul
  split_ifs with hab
  · constructor
    · intro h; cases h; exact ⟨hab, rfl⟩
    · rintro ⟨-, rfl⟩; rfl
  · constructor
    · intro h; cases h
    · rintro ⟨hab', -⟩; exact absurd hab' hab

theorem u128_checked_add_ok {a b c : Nat} :
    u128_checked_add a b = .ok c ↔ a + b < U128_MOD ∧ c = a + b := by
  unfold u128_checked_add
  split_ifs with hab
  · constructor
    · intro h; cases h; exact ⟨hab, rfl⟩
    · rintro ⟨-, rfl⟩; rfl
  · constructor
    · intro h; cases h
    · rintro ⟨hab', -⟩; exact absurd hab' hab

theorem u128_checked_div_ok {a b c : Nat} :
    u128_checked_div a b = .ok c ↔ b ≠ 0 ∧ c = a / b := by
  unfold u128_checked_div
  split_ifs with hb
  · subst hb
    constructor
    · intro h; cases h
    · rintro ⟨hb', -⟩; exact absurd rfl hb'
  · constructor
    · intro h; cases h; exact ⟨hb, rfl⟩
    · rintro ⟨-, rfl⟩; rfl

theorem get_sol_total_price_and_next_price_ok {maxT : Nat} {pool : Pool}
    {n : Nat} {fb : Bool} {t f : Nat}
    (h : get_sol_total_price_and_next_price maxT pool n fb = .ok (t, f)) :
    get_sol_total_price_and_next_price_inner pool n fb = .ok (t, f) ∧
      1 ≤ t ∧ t ≤ maxT := by
  unfold get_sol_total_price_and_next_price at h
  split at h
  next t' f' hi =>
    split_ifs at h with h0 hceil
    cases h
    exact ⟨hi, by omega, by omega⟩
  next e hi => cases h

/-- C3: for every curve type, every direction and every trade size, a
    computed total price of 0 makes get_sol_total_price_and_next_price fail
    with NumericOverflow, and a zero-price trade is never returned as a
    success. -/
theorem zero_total_price_always_rejected (maxT : Nat) (pool : Pool) (n : Nat)
    (fb : Bool) :
    (∀ fp, get_sol_total_price_and_next_price_inner pool n fb = .ok (0, fp) →
      get_sol_total_price_and_next_price maxT pool n fb =
        .error .NumericOverflow) ∧
    (∀ tp fp,
      get_sol_total_price_and_next_price maxT pool n fb = .ok (tp, fp) →
      1 ≤ tp) := by
  constructor
  · intro fp h
    unfold get_sol_total_price_and_next_price
    rw [h]
    simp
  · intro tp fp h
    exact (get_sol_total_price_and_next_price_ok h).2.1

/-- Witness for C3: at spot price 1000 a sell of size 0 computes total 0 and
    the call fails with NumericOverflow, while the successful buy of size 3
    returns the positive total 2970. -/
theorem zero_total_price_always_rejected_witness :
    get_sol_total_price_and_next_price 100000000 samplePool 0 false =
      .error .NumericOverflow ∧ (1 : Nat) ≤ 2970 := by
  refine ⟨(zero_total_price_always_rejected 100000000 samplePool 0 false).1
    1000 (by decide), ?_⟩
  exact (zero_total_price_always_rejected 100000000 samplePool 3 true).2
    2970 970 (by decide)

/-- C5: assert_valid_fees_bp succeeds exactly when the taker fee lies in
    [0, bound], the maker fee in [-bound, bound] and their sum in [0, bound];
    any other input fails with InvalidMakerOrTakerFeeBP. Concretely,
    (maker, taker) = (-50, 100) succeeds for every bound of at least 100 and
    (-200, 100) fails for every bound. -/
theorem assert_valid_fees_bp_iff (bound maker taker : Int) :
    (assert_valid_fees_bp bound maker taker = .ok () ↔
      (0 ≤ taker ∧ taker ≤ bound) ∧ (-bound ≤ maker ∧ maker ≤ bound) ∧
      (0 ≤ maker + taker ∧ maker + taker ≤ bound)) ∧
    (assert_valid_fees_bp bound maker taker ≠ .ok () →
      assert_valid_fees_bp bound maker taker =
        .error .InvalidMakerOrTakerFeeBP) ∧
    (100 ≤ bound → assert_valid_fees_bp bound (-50) 100 = .ok ()) ∧
    assert_valid_fees_bp bound (-200) 100 = .error .InvalidMakerOrTakerFeeBP := by
  refine ⟨?_, ?_, ?_, ?_⟩
  · unfold assert_valid_fees_bp
    split_ifs with h1 h2 h3
    · exact iff_of_true rfl ⟨h1, h2, h3⟩
    · constructor
      · intro h; cases h
      · intro h; exact absurd h.2.2 h3
    · constructor
      · intro h; cases h
      · intro h; exact absurd h.2.1 h2
    · constructor
      · intro h; cases h
      · intro h; exact absurd h.1 h1
  · unfold assert_valid_fees_bp
    split_ifs
    · intro h; exact absurd rfl h
    · intro _; rfl
    · intro _; rfl
    · intro _; rfl
  · intro hb
    unfold assert_valid_fees_bp
    split_ifs with h1 h2 h3
    · rfl
    · exfalso; omega
    · exfalso; omega
    · exfalso; omega
  · unfold assert_valid_fees_bp
    split_ifs with h1 h2 h3
    · exfalso; omega
    · rfl
    · rfl
    · rfl

/-- Witness for C5: at the referral-fee bound 500, (-50, 100) succeeds and
    (-200, 100) fails with InvalidMakerOrTakerFeeBP. -/
theorem assert_valid_fees_bp_iff_witness :
    assert_valid_fees_bp 500 (-50) 100 = .ok () ∧
    assert_valid_fees_bp 500 (-200) 100 = .error .InvalidMakerOrTakerFeeBP :=
  ⟨(assert_valid_fees_bp_iff 500 (-50) 100).2.2.1 (by norm_num),
   (assert_valid_fees_bp_iff 500 (-200) 100).2.2.2⟩

/-- C7: try_close_escrow leaves the escrow untouched exactly when its balance
    is zero or strictly above max(min_rent, floor), where the floor is
    min_rent for a reinvesting pool that still holds inventory and otherwise
    spot_price * MIN_SOL_ESCROW_BALANCE_BP / 10000; in every other case it
    sweeps the entire balance back to the pool, leaving the escrow at zero. -/
theorem try_close_escrow_sweep_iff (min_rent bp escrow : Nat) (pool : Pool)
    (hmul : pool.spot_price * bp < U128_MOD)
    (hconv : pool.spot_price * bp / 10000 < U64_MOD) :
    (escrow = 0 ∨
        escrow > max min_rent
            (if pool.reinvest_fulfill_sell = true ∧ pool.sellside_asset_amount > 0
             then min_rent else pool.spot_price * bp / 10000) →
      try_close_escrow min_rent bp escrow pool = .ok (escrow, 0)) ∧
    (escrow ≠ 0 →
      escrow ≤ max min_rent
          (if pool.reinvest_fulfill_sell = true ∧ pool.sellside_asset_amount > 0
           then min_rent else pool.spot_price * bp / 10000) →
      try_close_escrow min_rent bp escrow pool = .ok (0, escrow)) := by
  have hrun :
      try_close_escrow min_rent bp escrow pool =
        if escrow = 0 ∨ escrow > max min_rent
            (if pool.reinvest_fulfill_sell = true ∧ pool.sellside_asset_amount > 0
             then min_rent else pool.spot_price * bp / 10000)
        then .ok (escrow, 0) else .ok (0, escrow) := by
    unfold try_close_escrow
    by_cases hre :
        pool.reinvest_fulfill_sell = true ∧ pool.sellside_asset_amount > 0
    · rw [if_pos hre, if_pos hre]
      simp only [pure, Except.pure, Bind.bind, Except.bind]
    · rw [if_neg hre, if_neg hre]
      have h1 : u128_checked_mul pool.spot_price bp =
          .ok (pool.spot_price * bp) := by
        unfold u128_checked_mul; rw [if_pos hmul]
      have h2 : u128_checked_div (pool.spot_price * bp) 10000 =
          .ok (pool.spot_price * bp / 10000) := by
        unfold u128_checked_div; norm_num
      rw [h1]
      simp only [Bind.bind, Except.bind]
      rw [h2]
      dsimp only
      rw [if_pos hconv]
      dsimp only [pure, Except.pure]
  constructor
  · intro hcase
    rw [hrun, if_pos hcase]
  · intro hne hle
    rw [hrun, if_neg]
    rintro (h0 | hgt)
    · exact hne h0
    · omega

/-- Witness for C7: a non-reinvesting pool with spot price 1000000 and floor
    basis points 100 has floor 10000; an escrow holding 500 (below the
    max(890880, 10000) threshold) is swept to zero, and an escrow holding 0
    is left untouched. -/
theorem try_close_escrow_sweep_iff_witness :
    try_close_escrow 890880 100 500 samplePool = .ok (0, 500) ∧
    try_close_escrow 890880 100 0 samplePool = .ok (0, 0) := by
  constructor
  · exact (try_close_escrow_sweep_iff 890880 100 500 samplePool (by decide)
      (by decide)).2 (by decide) (by decide)
  · exact (try_close_escrow_sweep_iff 890880 100 0 samplePool (by decide)
      (by decide)).1 (Or.inl rfl)

/-- C9: try_close_pool reclaims the pool (zeroed data, full balance moved to
    the owner) exactly when the inventory and payment amounts are zero and,
    when a shared escrow is used, the shared-escrow count is zero; any other
    pool is left untouched. A reclaimed pool satisfies the conditions again,
    so a second call is a no-op that transfers nothing. -/
theorem try_close_pool_iff_idempotent (ps : PoolAccount) (o : Nat)
    (hov : o + ps.lamports < U64_MOD) :
    (ps.data.sellside_asset_amount = 0 ∧ ps.data.buyside_payment_amount = 0 ∧
        (ps.data.using_shared_escrow = true → ps.data.shared_escrow_count = 0) →
      try_close_pool ps o = some (⟨Pool.zeroed, 0⟩, o + ps.lamports) ∧
      ∀ o2 < U64_MOD, try_close_pool ⟨Pool.zeroed, 0⟩ o2 =
        some (⟨Pool.zeroed, 0⟩, o2)) ∧
    (¬(ps.data.sellside_asset_amount = 0 ∧ ps.data.buyside_payment_amount = 0 ∧
        (ps.data.using_shared_escrow = true → ps.data.shared_escrow_count = 0)) →
      try_close_pool ps o = some (ps, o)) := by
  constructor
  · rintro ⟨hsell, hbuy, hshared⟩
    constructor
    · unfold try_close_pool
      rw [if_neg (show ¬ps.data.sellside_asset_amount ≠ 0 by omega),
        if_neg (show ¬ps.data.buyside_payment_amount ≠ 0 by omega),
        if_neg (show ¬(ps.data.using_shared_escrow = true ∧
          ps.data.shared_escrow_count ≠ 0) from
          fun hc => hc.2 (hshared hc.1)),
        if_pos hov]
    · intro o2 ho2
      unfold try_close_pool
      rw [if_neg (by decide), if_neg (by decide), if_neg (by decide),
        if_pos (show o2 + (0 : Nat) < U64_MOD from ho2)]
      rfl
  · intro hno
    by_cases h1 : ps.data.sellside_asset_amount ≠ 0
    · unfold try_close_pool
      rw [if_pos h1]
    · by_cases h2 : ps.data.buyside_payment_amount ≠ 0
      · unfold try_close_pool
        rw [if_neg h1, if_pos h2]
      · have h3 : ps.data.using_shared_escrow = true ∧
            ps.data.shared_escrow_count ≠ 0 := by
          by_contra hc
          apply hno
          refine ⟨by omega, by omega, fun hu => ?_⟩
          by_contra hcnt
          exact hc ⟨hu, hcnt⟩
        unfold try_close_pool
        rw [if_neg h1, if_neg h2, if_pos h3]

theorem master_edition_check_ok {mplId : Nat} {ctx : MintCheckCtx}
    (hs : structuralOk mplId ctx) :
    master_edition_check mplId ctx.master_edition = .ok () := by
  obtain ⟨-, -, h3⟩ := hs
  unfold master_edition_check
  rcases hmeq : ctx.master_edition with - | me
  · rfl
  · rw [hmeq] at h3
    dsimp only at h3
    obtain ⟨hp, hrest⟩ := h3
    dsimp only
    rw [if_neg (not_not.mpr hp)]
    by_cases hde : me.data_empty = true
    · rw [if_neg (not_not.mpr hde)]
    · rw [if_pos hde]
      have hfalse : me.data_empty = false := by
        cases hdm : me.data_empty
        · rfl
        · exact absurd hdm hde
      obtain ⟨ho, hv⟩ := hrest hfalse
      rw [if_neg (not_not.mpr ho), if_neg (not_not.mpr hv)]

theorem check_allowlists_for_mint_reduces (allowlists : List Allowlist)
    {mplId : Nat} {ctx : MintCheckCtx} {aux : Option String}
    (hs : structuralOk mplId ctx)
    (hnm : allowlists.any (fun val => val.kind == ALLOWLIST_KIND_METADATA) = false) :
    check_allowlists_for_mint mplId allowlists ctx aux =
      check_allowlists_loop ctx.mint_key ctx.parsed_metadata allowlists := by
  unfold check_allowlists_for_mint
  rw [if_neg (not_not.mpr hs.1), if_neg (not_not.mpr hs.2.1),
    master_edition_check_ok hs]
  have huri : metadata_uri_check allowlists ctx.parsed_metadata.uri aux =
      .ok () := by
    unfold metadata_uri_check
    rw [if_neg (by rw [hnm]; intro hc; cases hc)]
  rw [huri]

/-- C8: under passing structural checks, an allowlist consisting of the
    single entry Any accepts every asset, and an allowlist consisting of the
    single entry Mint X accepts exactly the asset whose mint key is X,
    failing with InvalidAllowLists on every other asset. -/
theorem check_allowlists_any_mint_spec (mplId v X : Nat) (ctx : MintCheckCtx)
    (aux : Option String) (hs : structuralOk mplId ctx) :
    check_allowlists_for_mint mplId [⟨ALLOWLIST_KIND_ANY, v⟩] ctx aux =
      .ok ctx.parsed_metadata ∧
    (ctx.mint_key = X →
      check_allowlists_for_mint mplId [⟨ALLOWLIST_KIND_MINT, X⟩] ctx aux =
        .ok ctx.parsed_metadata) ∧
    (ctx.mint_key ≠ X →
      check_allowlists_for_mint mplId [⟨ALLOWLIST_KIND_MINT, X⟩] ctx aux =
        .error .InvalidAllowLists) := by
  refine ⟨?_, ?_, ?_⟩
  · rw [check_allowlists_for_mint_reduces [⟨ALLOWLIST_KIND_ANY, v⟩] hs rfl]
    unfold check_allowlists_loop
    dsimp only
    rw [if_neg (by decide), if_pos (by decide)]
  · intro hx
    rw [check_allowlists_for_mint_reduces [⟨ALLOWLIST_KIND_MINT, X⟩] hs rfl]
    unfold check_allowlists_loop
    dsimp only
    rw [if_neg (by decide), if_neg (by decide), if_neg (by decide),
      if_pos (by decide), if_pos hx]
  · intro hx
    rw [check_allowlists_for_mint_reduces [⟨ALLOWLIST_KIND_MINT, X⟩] hs rfl]
    unfold check_allowlists_loop
    dsimp only
    rw [if_neg (by decide), if_neg (by decide), if_neg (by decide),
      if_pos (by decide), if_neg hx]
    rfl

/-- Witness for C8: a structurally valid asset with mint key 42 passes the
    Any allowlist, passes the Mint 42 allowlist, and fails the Mint 43
    allowlist with InvalidAllowLists. -/
theorem check_allowlists_any_mint_spec_witness :
    check_allowlists_for_mint 7 [⟨ALLOWLIST_KIND_ANY, 0⟩]
      ⟨42, 7, 9, 9, ⟨none, 500, "u", none⟩, none⟩ none =
      .ok ⟨none, 500, "u", none⟩ ∧
    check_allowlists_for_mint 7 [⟨ALLOWLIST_KIND_MINT, 42⟩]
      ⟨42, 7, 9, 9, ⟨none, 500, "u", none⟩, none⟩ none =
      .ok ⟨none, 500, "u", none⟩ ∧
    check_allowlists_for_mint 7 [⟨ALLOWLIST_KIND_MINT, 43⟩]
      ⟨42, 7, 9, 9, ⟨none, 500, "u", none⟩, none⟩ none =
      .error .InvalidAllowLists := by
  have hs : structuralOk 7 ⟨42, 7, 9, 9, ⟨none, 500, "u", none⟩, none⟩ :=
    ⟨rfl, rfl, trivial⟩
  have h := check_allowlists_any_mint_spec 7 0 42
    ⟨42, 7, 9, 9, ⟨none, 500, "u", none⟩, none⟩ none hs
  have h2 := check_allowlists_any_mint_spec 7 0 43
    ⟨42, 7, 9, 9, ⟨none, 500, "u", none⟩, none⟩ none hs
  exact ⟨h.1, h.2.1 rfl, h2.2.2 (by decide)⟩

theorem nat_mul_lt_of_lt_of_lt {a b c d : Nat} (ha : a < c) (hb : b < d) :
    a * b < c * d := by
  have hd : 0 < d := Nat.lt_of_le_of_lt (Nat.zero_le b) hb
  calc a * b ≤ a * d := Nat.mul_le_mul_left a (Nat.le_of_lt hb)
  _ < c * d := (Nat.mul_lt_mul_right hd).mpr ha

theorem pay_creator_fees_in_sol_eq (min_rent maxM bbp tp payerL mbp : Nat)
    (md : Metadata) (accounts : List CreatorAccount)
    (htp : tp < U64_MOD) (hmbp : mbp < 2 ^ 16) (hbbp : bbp < 2 ^ 16) :
    pay_creator_fees_in_sol min_rent maxM bbp tp md accounts payerL mbp =
      (if royaltyAmount tp mbp bbp = 0 then .ok (0, [])
       else
         match md.creators with
         | none => .ok (0, [])
         | some creators =>
           if payerL < royaltyAmount tp mbp bbp then .error .NotEnoughBalance
           else if maxM < md.seller_fee_basis_points then
             .error .InvalidMetadataCreatorRoyalty
           else
             pay_creator_fees_loop (royaltyAmount tp mbp bbp) min_rent
               creators accounts 0 []) := by
  have hb1 : tp * mbp < U128_MOD := by
    have h := nat_mul_lt_of_lt_of_lt htp hmbp
    unfold U128_MOD
    calc tp * mbp < 2 ^ 64 * 2 ^ 16 := by exact_mod_cast h
    _ ≤ 2 ^ 128 := by norm_num
  have hb2 : tp * mbp / 10000 * bbp < U128_MOD := by
    have hle : tp * mbp / 10000 ≤ tp * mbp := Nat.div_le_self _ _
    have h := nat_mul_lt_of_lt_of_lt
      (Nat.lt_of_le_of_lt hle (by exact_mod_cast nat_mul_lt_of_lt_of_lt htp hmbp))
      hbbp
    unfold U128_MOD
    calc tp * mbp / 10000 * bbp < 2 ^ 64 * 2 ^ 16 * 2 ^ 16 := h
    _ ≤ 2 ^ 128 := by norm_num
  have e1 : u128_checked_mul tp mbp = .ok (tp * mbp) := by
    unfold u128_checked_mul; rw [if_pos hb1]
  have e2 : u128_checked_div (tp * mbp) 10000 = .ok (tp * mbp / 10000) := by
    unfold u128_checked_div; norm_num
  have e3 : u128_checked_mul (tp * mbp / 10000) bbp =
      .ok (tp * mbp / 10000 * bbp) := by
    unfold u128_checked_mul; rw [if_pos hb2]
  have e4 : u128_checked_div (tp * mbp / 10000 * bbp) 10000 =
      .ok (tp * mbp / 10000 * bbp / 10000) := by
    unfold u128_checked_div; norm_num
  unfold pay_creator_fees_in_sol
  rw [e1]
  simp only [Bind.bind, Except.bind]
  rw [e2]
  dsimp only
  rw [e3]
  dsimp only
  rw [e4]
  dsimp only [pure, Except.pure]
  rfl

/-- C10: pay_creator_fees_in_sol returns Ok(0) immediately, regardless of
    the payer balance, the royalty ceiling and the creator accounts,
    whenever the computed royalty is zero or the metadata declares no
    creators; conversely, NotEnoughBalance, InvalidMetadataCreatorRoyalty
    and InvalidCreatorAddress can arise only with a positive royalty and a
    present creator list. -/
theorem pay_creator_fees_zero_royalty_shortcircuit
    (min_rent maxM bbp tp payerL mbp : Nat) (md : Metadata)
    (accounts : List CreatorAccount)
    (htp : tp < U64_MOD) (hmbp : mbp < 2 ^ 16) (hbbp : bbp < 2 ^ 16) :
    (royaltyAmount tp mbp bbp = 0 ∨ md.creators = none →
      pay_creator_fees_in_sol min_rent maxM bbp tp md accounts payerL mbp =
        .ok (0, [])) ∧
    (∀ e, pay_creator_fees_in_sol min_rent maxM bbp tp md accounts payerL mbp =
        .error e →
      e = .NotEnoughBalance ∨ e = .InvalidMetadataCreatorRoyalty ∨
        e = .InvalidCreatorAddress →
      1 ≤ royaltyAmount tp mbp bbp ∧ ∃ cs, md.creators = some cs) := by
  rw [pay_creator_fees_in_sol_eq min_rent maxM bbp tp payerL mbp md accounts
    htp hmbp hbbp]
  constructor
  · intro hz
    by_cases h0 : royaltyAmount tp mbp bbp = 0
    · rw [if_pos h0]
    · rw [if_neg h0]
      rcases hz with h0' | hc
      · exact absurd h0' h0
      · rw [hc]
  · intro e he _
    by_cases h0 : royaltyAmount tp mbp bbp = 0
    · rw [if_pos h0] at he
      cases he
    · rw [if_neg h0] at he
      refine ⟨by omega, ?_⟩
      rcases hc : md.creators with - | cs
      · rw [hc] at he
        cases he
      · exact ⟨cs, rfl⟩

/-- Witness for C10: with royalty basis points 0 the call returns Ok(0) even
    though the payer holds nothing, and with a positive royalty and a
    declared creator an underfunded payer fails with NotEnoughBalance, which
    therefore certifies a positive royalty and a present creator list. -/
theorem pay_creator_fees_zero_royalty_shortcircuit_witness :
    pay_creator_fees_in_sol 1 5000 10000 1000
      ⟨some [⟨1, true, 100⟩], 500, "u", none⟩ [⟨1, 0⟩] 0 0 = .ok (0, []) ∧
    (1 ≤ royaltyAmount 1000 10000 10000 ∧
      ∃ cs, (⟨some [⟨1, true, 100⟩], 500, "u", none⟩ : Metadata).creators =
        some cs) := by
  constructor
  · exact (pay_creator_fees_zero_royalty_shortcircuit 1 5000 10000 1000 0 0
      ⟨some [⟨1, true, 100⟩], 500, "u", none⟩ [⟨1, 0⟩]
      (by decide) (by decide) (by decide)).1 (Or.inl (by decide))
  · exact (pay_creator_fees_zero_royalty_shortcircuit 1 5000 10000 1000 5 10000
      ⟨some [⟨1, true, 100⟩], 500, "u", none⟩ [⟨1, 0⟩]
      (by decide) (by decide) (by decide)).2 .NotEnoughBalance (by decide)
      (Or.inl rfl)

/-- Witness for C9: an empty pool account holding 777 lamports is reclaimed,
    its owner receiving the full balance, and the reclaimed pool is closed
    again as a no-op. -/
theorem try_close_pool_iff_idempotent_witness :
    try_close_pool ⟨⟨1000, 0, 10, 0, 0, 0, false, 0, 0⟩, 777⟩ 23 =
      some (⟨Pool.zeroed, 0⟩, 800) ∧
    try_close_pool ⟨Pool.zeroed, 0⟩ 800 = some (⟨Pool.zeroed, 0⟩, 800) := by
  have h := (try_close_pool_iff_idempotent
    ⟨⟨1000, 0, 10, 0, 0, 0, false, 0, 0⟩, 777⟩ 23 (by decide)).1
    ⟨rfl, rfl, by decide⟩
  exact ⟨h.1, h.2 800 (by decide)⟩

theorem linear_buy_inner_ok {pool : Pool} {n t f : Nat}
    (hc : pool.curve_type = CURVE_KIND_LINEAR)
    (h : get_sol_total_price_and_next_price_inner pool n true = .ok (t, f)) :
    1 ≤ n ∧ (n - 1) * pool.curve_delta ≤ pool.spot_price * 2 ∧
    n * pool.curve_delta ≤ pool.spot_price ∧
    t = n * (pool.spot_price * 2 - (n - 1) * pool.curve_delta) / 2 ∧
    f = pool.spot_price - n * pool.curve_delta := by
  unfold get_sol_total_price_and_next_price_inner at h
  dsimp only at h
  rw [if_pos hc] at h
  obtain ⟨p2, hp2, h⟩ := mmmResult_bind_ok h
  obtain ⟨nm1, hnm1, h⟩ := mmmResult_bind_ok h
  obtain ⟨dstep, hdstep, h⟩ := mmmResult_bind_ok h
  obtain ⟨base, hbase, h⟩ := mmmResult_bind_ok h
  obtain ⟨tp, htp, h⟩ := mmmResult_bind_ok h
  obtain ⟨total, htotal, h⟩ := mmmResult_bind_ok h
  obtain ⟨nd, hnd, h⟩ := mmmResult_bind_ok h
  obtain ⟨final, hfinal, h⟩ := mmmResult_bind_ok h
  rw [u64_checked_mul_ok] at hp2
  obtain ⟨-, rfl⟩ := hp2
  rw [u64_checked_sub_ok] at hnm1
  obtain ⟨h1n, rfl⟩ := hnm1
  rw [u64_checked_mul_ok] at hdstep
  obtain ⟨-, rfl⟩ := hdstep
  rw [u64_checked_sub_ok] at hbase
  obtain ⟨hb, rfl⟩ := hbase
  rw [u64_checked_mul_ok] at htp
  obtain ⟨-, rfl⟩ := htp
  rw [u64_checked_div_ok] at htotal
  obtain ⟨-, rfl⟩ := htotal
  rw [u64_checked_mul_ok] at hnd
  obtain ⟨-, rfl⟩ := hnd
  rw [u64_checked_sub_ok] at hfinal
  obtain ⟨hf, rfl⟩ := hfinal
  cases h
  exact ⟨h1n, hb, hf, rfl, rfl⟩

theorem linear_sell_inner_ok {pool : Pool} {n t f : Nat}
    (hc : pool.curve_type = CURVE_KIND_LINEAR)
    (h : get_sol_total_price_and_next_price_inner pool n false = .ok (t, f)) :
    t = n * (pool.spot_price * 2 + (n + 1) * pool.curve_delta) / 2 ∧
    f = pool.spot_price + n * pool.curve_delta := by
  unfold get_sol_total_price_and_next_price_inner at h
  dsimp only at h
  rw [if_pos hc] at h
  obtain ⟨p2, hp2, h⟩ := mmmResult_bind_ok h
  obtain ⟨np1, hnp1, h⟩ := mmmResult_bind_ok h
  obtain ⟨dstep, hdstep, h⟩ := mmmResult_bind_ok h
  obtain ⟨base, hbase, h⟩ := mmmResult_bind_ok h
  obtain ⟨tp, htp, h⟩ := mmmResult_bind_ok h
  obtain ⟨total, htotal, h⟩ := mmmResult_bind_ok h
  obtain ⟨nd, hnd, h⟩ := mmmResult_bind_ok h
  obtain ⟨final, hfinal, h⟩ := mmmResult_bind_ok h
  rw [u64_checked_mul_ok] at hp2
  obtain ⟨-, rfl⟩ := hp2
  rw [u64_checked_add_ok] at hnp1
  obtain ⟨-, rfl⟩ := hnp1
  rw [u64_checked_mul_ok] at hdstep
  obtain ⟨-, rfl⟩ := hdstep
  rw [u64_checked_add_ok] at hbase
  obtain ⟨-, rfl⟩ := hbase
  rw [u64_checked_mul_ok] at htp
  obtain ⟨-, rfl⟩ := htp
  rw [u64_checked_div_ok] at htotal
  obtain ⟨-, rfl⟩ := htotal
  rw [u64_checked_mul_ok] at hnd
  obtain ⟨-, rfl⟩ := hnd
  rw [u64_checked_add_ok] at hfinal
  obtain ⟨-, rfl⟩ := hfinal
  cases h
  exact ⟨rfl, rfl⟩

theorem linear_series_sum (p d : Nat) :
    ∀ n, n * d ≤ p →
      2 * (∑ i ∈ Finset.range n, (p - i * d)) + n * (n - 1) * d = 2 * (n * p) := by
  intro n
  induction n with
  | zero => simp
  | succ m ih =>
    intro hle
    have hm : m * d ≤ p :=
      le_trans (Nat.mul_le_mul_right d (Nat.le_succ m)) hle
    have ih' := ih hm
    rw [Finset.sum_range_succ]
    have hsub : p - m * d + m * d = p := Nat.sub_add_cancel hm
    have e1 : (m + 1) * m * d = m * (m - 1) * d + 2 * (m * d) := by
      cases m with
      | zero => simp
      | succ k =>
        simp only [Nat.succ_sub_one]
        ring
    have e2 : (m + 1) * p = m * p + p := by ring
    have e3 : (m + 1) * ((m + 1) - 1) * d = (m + 1) * m * d := by
      simp only [Nat.succ_sub_one]
    omega


theorem two_dvd_mul_pred (n : Nat) : 2 ∣ n * (n - 1) := by
  cases n with
  | zero => simp
  | succ k =>
    simp only [Nat.succ_sub_one]
    have h : Even (k * (k + 1)) := Nat.even_mul_succ_self k
    exact (by simpa [Nat.mul_comm] using h : Even ((k + 1) * k)).two_dvd

theorem two_dvd_mul_succ (n : Nat) : 2 ∣ n * (n + 1) :=
  (Nat.even_mul_succ_self n).two_dvd

/-- C2: whenever a linear-curve buy fulfillment of size n succeeds, its total
    price is n*(2p - (n-1)*delta)/2, the arithmetic-series sum of the n unit
    prices p, p - delta, ..., p - (n-1)*delta, and the next spot price is
    p - n*delta. -/
theorem linear_buy_total_closed_form (maxT : Nat) (pool : Pool) (n t f : Nat)
    (hc : pool.curve_type = CURVE_KIND_LINEAR)
    (h : get_sol_total_price_and_next_price maxT pool n true = .ok (t, f)) :
    t = n * (2 * pool.spot_price - (n - 1) * pool.curve_delta) / 2 ∧
    f = pool.spot_price - n * pool.curve_delta ∧
    t = ∑ i ∈ Finset.range n, (pool.spot_price - i * pool.curve_delta) := by
  obtain ⟨hi, -, -⟩ := get_sol_total_price_and_next_price_ok h
  obtain ⟨h1n, hb, hf, ht, hfp⟩ := linear_buy_inner_ok hc hi
  set p := pool.spot_price with hp
  set d := pool.curve_delta with hd
  have hcomm : n * (2 * p - (n - 1) * d) / 2 = n * (p * 2 - (n - 1) * d) / 2 := by
    rw [Nat.mul_comm 2 p]
  refine ⟨by rw [hcomm]; exact ht, hfp, ?_⟩
  have hgauss := linear_series_sum p d n hf
  have hA : n * (p * 2 - (n - 1) * d) + n * ((n - 1) * d) = n * (p * 2) := by
    rw [← Nat.mul_add]
    rw [Nat.sub_add_cancel hb]
  have hassoc : n * ((n - 1) * d) = n * (n - 1) * d := by ring
  have hassoc2 : n * (p * 2) = 2 * (n * p) := by ring
  have hdvd : 2 ∣ n * (n - 1) * d :=
    Dvd.dvd.mul_right (two_dvd_mul_pred n) d
  omega

/-- Witness for C2: for the sample pool (p = 1000, delta = 10) and n = 3 the
    successful buy total 2970 matches the closed form and the series
    1000 + 990 + 980, and the next spot price is 970. -/
theorem linear_buy_total_closed_form_witness :
    2970 = 3 * (2 * 1000 - (3 - 1) * 10) / 2 ∧ 970 = 1000 - 3 * 10 ∧
    2970 = ∑ i ∈ Finset.range 3, (1000 - i * 10) :=
  linear_buy_total_closed_form 100000000 samplePool 3 2970 970 rfl (by decide)

/-- C1 (amended): for every linear pool with curve_delta at least 1, when a
    buy and a sell fulfillment of the same size n succeed at the same spot
    price, the sell total strictly exceeds the buy total. With curve_delta
    equal to 0, which check_curve also accepts, the two totals are equal, so
    strictness needs delta >= 1; and the buy total at p = 1000, delta = 10,
    n = 3 is 2970, not the 2940 the claim states. -/
theorem sell_total_exceeds_buy_total_linear (maxT : Nat) (pool : Pool)
    (n bt bf st sf : Nat)
    (hc : pool.curve_type = CURVE_KIND_LINEAR)
    (hd : 1 ≤ pool.curve_delta)
    (hb : get_sol_total_price_and_next_price maxT pool n true = .ok (bt, bf))
    (hs : get_sol_total_price_and_next_price maxT pool n false = .ok (st, sf)) :
    bt < st := by
  obtain ⟨hbi, -, -⟩ := get_sol_total_price_and_next_price_ok hb
  obtain ⟨hsi, -, -⟩ := get_sol_total_price_and_next_price_ok hs
  obtain ⟨h1n, hbb, -, hbt, -⟩ := linear_buy_inner_ok hc hbi
  obtain ⟨hst, -⟩ := linear_sell_inner_ok hc hsi
  set p := pool.spot_price with hp
  set d := pool.curve_delta with hdd
  have hA : n * (p * 2 - (n - 1) * d) + n * ((n - 1) * d) = n * (p * 2) := by
    rw [← Nat.mul_add, Nat.sub_add_cancel hbb]
  have hB : n * (p * 2 + (n + 1) * d) = n * (p * 2) + n * ((n + 1) * d) := by
    ring
  have hnn : n * ((n - 1) * d) + n * ((n + 1) * d) = 2 * (n * n * d) := by
    cases n with
    | zero => simp
    | succ k =>
      simp only [Nat.succ_sub_one]
      ring
  have hpos : 0 < n * n * d := by positivity
  have hdvd1 : 2 ∣ n * ((n - 1) * d) := by
    have := Dvd.dvd.mul_right (two_dvd_mul_pred n) d
    rwa [Nat.mul_assoc] at this
  have hdvd2 : 2 ∣ n * ((n + 1) * d) := by
    have := Dvd.dvd.mul_right (two_dvd_mul_succ n) d
    rwa [Nat.mul_assoc] at this
  omega

/-- Witness for C1: for the sample pool (p = 1000, delta = 10) and n = 3 the
    buy returns total 2970 with next price 970, the sell returns total 3060
    with next price 1030, and 2970 < 3060. -/
theorem sell_total_exceeds_buy_total_linear_witness :
    get_sol_total_price_and_next_price 100000000 samplePool 3 true =
      .ok (2970, 970) ∧
    get_sol_total_price_and_next_price 100000000 samplePool 3 false =
      .ok (3060, 1030) ∧
    2970 < 3060 :=
  ⟨by decide, by decide,
   sell_total_exceeds_buy_total_linear 100000000 samplePool 3 2970 970 3060
     1030 rfl (by decide) (by decide) (by decide)⟩

/-- Counterexample to C1 as stated: the buy at p = 1000, delta = 10, n = 3
    returns (2970, 970), not the claimed (2940, 970); and at delta = 0, which
    check_curve accepts for a linear pool, a buy and a sell of size 1 at spot
    price 1000 both succeed with the same total 1000, so the sell total is
    not strictly greater. -/
theorem sell_total_exceeds_buy_total_linear_cex :
    get_sol_total_price_and_next_price 100000000 samplePool 3 true =
      .ok (2970, 970) ∧
    (2970, 970) ≠ ((2940, 970) : Nat × Nat) ∧
    check_curve 0 0 = .ok () ∧
    get_sol_total_price_and_next_price 100000000 flatPool 1 true =
      .ok (1000, 1000) ∧
    get_sol_total_price_and_next_price 100000000 flatPool 1 false =
      .ok (1000, 1000) ∧
    ¬(1000 < 1000) := by
  refine ⟨by decide, by decide, by decide, by decide, by decide, by omega⟩

theorem expBuyStep_le (d c : Nat) : expBuyStep d c ≤ c := by
  unfold expBuyStep
  have h : c * 10000 ≤ c * (d + 10000) :=
    Nat.mul_le_mul_left c (by omega)
  calc c * 10000 / (d + 10000) ≤ c * (d + 10000) / (d + 10000) :=
    Nat.div_le_div_right h
  _ = c := Nat.mul_div_cancel c (by omega)

theorem expBuyStep_lt (d c : Nat) (hd : 1 ≤ d) (hc : 0 < c) :
    expBuyStep d c < c := by
  unfold expBuyStep
  rw [Nat.div_lt_iff_lt_mul (by omega : 0 < d + 10000)]
  exact Nat.mul_lt_mul_of_pos_left (by omega : 10000 < d + 10000) hc

theorem expSellStep_eq (d c : Nat) : expSellStep d c = c + c * d / 10000 := by
  unfold expSellStep
  rw [Nat.mul_add]
  rw [show c * d + c * 10000 = c * d + 10000 * c by ring]
  rw [Nat.add_mul_div_left _ _ (by omega : 0 < 10000)]
  omega

theorem expSellStep_ge (d c : Nat) : c ≤ expSellStep d c := by
  rw [expSellStep_eq]
  omega

theorem expSellStep_gt (d c : Nat) (h : 10000 ≤ c * d) : c < expSellStep d c := by
  rw [expSellStep_eq]
  have : 1 ≤ c * d / 10000 := (Nat.one_le_div_iff (by omega)).mpr h
  omega

theorem exp_buy_loop_ok (d : Nat) : ∀ (k total curr total' curr' : Nat),
    exp_buy_loop d k (total, curr) = .ok (total', curr') →
    total' = total +
      ((List.range k).map (fun i => u64cast ((expBuyStep d)^[i] curr))).sum ∧
    curr' = (expBuyStep d)^[k] curr := by
  intro k
  induction k with
  | zero =>
    intro total curr total' curr' h
    simp only [exp_buy_loop] at h
    cases h
    simp
  | succ m ih =>
    intro total curr total' curr' h
    simp only [exp_buy_loop] at h
    obtain ⟨total1, htotal1, h⟩ := mmmResult_bind_ok h
    obtain ⟨num, hnum, h⟩ := mmmResult_bind_ok h
    obtain ⟨den, hden, h⟩ := mmmResult_bind_ok h
    obtain ⟨curr1, hcurr1, h⟩ := mmmResult_bind_ok h
    rw [u64_checked_add_ok] at htotal1
    obtain ⟨-, rfl⟩ := htotal1
    rw [u128_checked_mul_ok] at hnum
    obtain ⟨-, rfl⟩ := hnum
    rw [u128_checked_add_ok] at hden
    obtain ⟨-, rfl⟩ := hden
    rw [u128_checked_div_ok] at hcurr1
    obtain ⟨-, rfl⟩ := hcurr1
    obtain ⟨ht, hcu⟩ := ih _ _ _ _ h
    have hstep : curr * 10000 / (d + 10000) = expBuyStep d curr := rfl
    rw [hstep] at ht hcu
    constructor
    · rw [ht]
      have hsum : ((List.range (m + 1)).map
            (fun i => u64cast ((expBuyStep d)^[i] curr))).sum =
          u64cast curr + ((List.range m).map
            (fun i => u64cast ((expBuyStep d)^[i] (expBuyStep d curr)))).sum := by
        rw [List.range_succ_eq_map]
        simp [List.map_map, Function.comp_def, Function.iterate_succ_apply]
      omega
    · rw [hcu, ← Function.iterate_succ_apply]

theorem exp_sell_loop_ok (d : Nat) : ∀ (k total curr total' curr' : Nat),
    exp_sell_loop d k (total, curr) = .ok (total', curr') →
    total' = total +
      ((List.range k).map (fun i => u64cast ((expSellStep d)^[i + 1] curr))).sum ∧
    curr' = (expSellStep d)^[k] curr := by
  intro k
  induction k with
  | zero =>
    intro total curr total' curr' h
    simp only [exp_sell_loop] at h
    cases h
    simp
  | succ m ih =>
    intro total curr total' curr' h
    simp only [exp_sell_loop] at h
    obtain ⟨den, hden, h⟩ := mmmResult_bind_ok h
    obtain ⟨num, hnum, h⟩ := mmmResult_bind_ok h
    obtain ⟨curr1, hcurr1, h⟩ := mmmResult_bind_ok h
    obtain ⟨total1, htotal1, h⟩ := mmmResult_bind_ok h
    rw [u128_checked_add_ok] at hden
    obtain ⟨-, rfl⟩ := hden
    rw [u128_checked_mul_ok] at hnum
    obtain ⟨-, rfl⟩ := hnum
    rw [u128_checked_div_ok] at hcurr1
    obtain ⟨-, rfl⟩ := hcurr1
    rw [u64_checked_add_ok] at htotal1
    obtain ⟨-, rfl⟩ := htotal1
    obtain ⟨ht, hcu⟩ := ih _ _ _ _ h
    have hstep : curr * (d + 10000) / 10000 = expSellStep d curr := rfl
    rw [hstep] at ht hcu
    constructor
    · rw [ht]
      have hsum : ((List.range (m + 1)).map
            (fun i => u64cast ((expSellStep d)^[i + 1] curr))).sum =
          u64cast (expSellStep d curr) + ((List.range m).map
            (fun i => u64cast ((expSellStep d)^[i + 1] (expSellStep d curr)))).sum := by
        rw [List.range_succ_eq_map]
        simp [List.map_map, Function.comp_def, Function.iterate_succ_apply]
      omega
    · rw [hcu, ← Function.iterate_succ_apply]

theorem chain'_iterate_of_step {g : Nat → Nat} {R : Nat → Nat → Prop}
    (hstep : ∀ c, R c (g c)) (p n : Nat) :
    List.Chain' R ((List.range n).map (fun k => g^[k] p)) := by
  rcases n with - | m
  · simp
  · rw [List.chain'_map, List.chain'_range_succ]
    intro i _
    rw [Function.iterate_succ_apply']
    exact hstep _

/-- A sample exponential pool used by the concrete witnesses: spot price
    1000, curve delta 100 basis points. -/
def expPool : Pool :=
  ⟨1000, 1, 100, 0, 5, 0, false, 0, 0⟩

/-- An exponential pool with spot price 1 and curve delta 1, on which floor
    division makes consecutive unit prices repeat. -/
def unitExpPool : Pool :=
  ⟨1, 1, 1, 0, 5, 0, false, 0, 0⟩

/-- C4 (amended): for every exponential pool with curve_delta at least 1,
    whenever get_sol_total_price_and_next_price succeeds the total price is
    the sum of the (u64-cast) per-unit price sequence of the loop; that
    sequence is non-increasing for a buy — strictly decreasing wherever the
    current price is nonzero — and non-decreasing for a sell — strictly
    increasing wherever curr * delta reaches 10000. Exact strictness fails
    because floor division can repeat a price. -/
theorem exp_unit_prices_monotone (maxT : Nat) (pool : Pool) (n : Nat)
    (hc : pool.curve_type = CURVE_KIND_EXP) (hd : 1 ≤ pool.curve_delta) :
    (∀ t f, get_sol_total_price_and_next_price maxT pool n true = .ok (t, f) →
      t = ((expBuyPrices pool.curve_delta pool.spot_price n).map u64cast).sum) ∧
    List.Chain' (fun a b => b ≤ a ∧ (0 < a → b < a))
      (expBuyPrices pool.curve_delta pool.spot_price n) ∧
    (∀ t f, get_sol_total_price_and_next_price maxT pool n false = .ok (t, f) →
      t = ((expSellPrices pool.curve_delta pool.spot_price n).map u64cast).sum) ∧
    List.Chain' (fun a b => a ≤ b ∧ (10000 ≤ a * pool.curve_delta → a < b))
      (expSellPrices pool.curve_delta pool.spot_price n) := by
  have hnl : ¬pool.curve_type = CURVE_KIND_LINEAR := by
    rw [hc]; decide
  refine ⟨?_, ?_, ?_, ?_⟩
  · intro t f h
    obtain ⟨hi, -, -⟩ := get_sol_total_price_and_next_price_ok h
    unfold get_sol_total_price_and_next_price_inner at hi
    dsimp only at hi
    rw [if_neg hnl, if_pos hc] at hi
    obtain ⟨pr, hpr, hi⟩ := mmmResult_bind_ok hi
    rcases pr with ⟨tt, cc⟩
    dsimp only at hi
    cases hi
    obtain ⟨ht, -⟩ :=
      exp_buy_loop_ok pool.curve_delta n 0 pool.spot_price _ _ hpr
    rw [ht]
    unfold expBuyPrices
    rw [List.map_map]
    simp only [Function.comp_def]
    omega
  · exact chain'_iterate_of_step
      (fun c => ⟨expBuyStep_le _ c, fun hc0 => expBuyStep_lt _ c hd hc0⟩)
      pool.spot_price n
  · intro t f h
    obtain ⟨hi, -, -⟩ := get_sol_total_price_and_next_price_ok h
    unfold get_sol_total_price_and_next_price_inner at hi
    dsimp only at hi
    rw [if_neg hnl, if_pos hc] at hi
    obtain ⟨pr, hpr, hi⟩ := mmmResult_bind_ok hi
    rcases pr with ⟨tt, cc⟩
    dsimp only at hi
    cases hi
    obtain ⟨ht, -⟩ :=
      exp_sell_loop_ok pool.curve_delta n 0 pool.spot_price _ _ hpr
    rw [ht]
    unfold expSellPrices
    rw [List.map_map]
    simp only [Function.comp_def]
    omega
  · exact chain'_iterate_of_step
      (fun c => ⟨expSellStep_ge _ c, fun h10 => expSellStep_gt _ c h10⟩)
      (expSellStep pool.curve_delta pool.spot_price) n

/-- Witness for C4: for the exponential pool p = 1000, delta = 100 and n = 2
    the buy total 1990 is the sum of the decreasing unit prices [1000, 990]
    and the sell total 2030 is the sum of the increasing unit prices
    [1010, 1020]. -/
theorem exp_unit_prices_monotone_witness :
    1990 = ((expBuyPrices 100 1000 2).map u64cast).sum ∧
    List.Chain' (fun a b => b ≤ a ∧ (0 < a → b < a)) (expBuyPrices 100 1000 2) ∧
    2030 = ((expSellPrices 100 1000 2).map u64cast).sum ∧
    List.Chain' (fun a b => a ≤ b ∧ (10000 ≤ a * 100 → a < b))
      (expSellPrices 100 1000 2) := by
  have h := exp_unit_prices_monotone 100000000 expPool 2 rfl (by decide)
  exact ⟨h.1 1990 980 (by decide), h.2.1,
    h.2.2.1 2030 1020 (by decide), h.2.2.2⟩

/-- Counterexample to C4 as stated: on the exponential pool p = 1, delta = 1
    a sell of size 2 succeeds with total 2, but its per-unit price sequence
    is [1, 1], which is not strictly increasing. -/
theorem exp_unit_prices_strictly_monotone_cex :
    1 ≤ unitExpPool.curve_delta ∧
    get_sol_total_price_and_next_price 100000000 unitExpPool 2 false =
      .ok (2, 1) ∧
    expSellPrices 1 1 2 = [1, 1] ∧
    ¬List.Chain' (fun a b => a < b) (expSellPrices 1 1 2) := by
  refine ⟨by decide, by decide, by decide, ?_⟩
  rw [show expSellPrices 1 1 2 = [1, 1] from by decide, List.chain'_pair]
  omega

set_option maxHeartbeats 1600000 in
theorem pay_creator_fees_loop_spec (royalty min_rent : Nat) :
    ∀ (cs : List Creator) (accounts : List CreatorAccount)
      (total0 : Nat) (txs0 : List SolTransfer) (total' : Nat)
      (txs' : List SolTransfer),
      cs ≠ [] →
      (∀ a ∈ accounts, min_rent ≤ a.lamports) →
      (∀ fee ∈ proRataFees royalty total0 cs, 0 < fee) →
      pay_creator_fees_loop royalty min_rent cs accounts total0 txs0 =
        .ok (total', txs') →
      total' = royalty ∧
      txs' = txs0 ++ List.zipWith
        (fun (c : Creator) fee => SolTransfer.mk c.address fee)
        cs (proRataFees royalty total0 cs) := by
  intro cs
  induction cs with
  | nil => intro accounts total0 txs0 total' txs' hne _ _ _; exact absurd rfl hne
  | cons c rest ih =>
    intro accounts total0 txs0 total' txs' _ hfloor hpos h
    simp only [pay_creator_fees_loop] at h
    cases rest with
    | nil =>
      rw [if_pos (show (List.isEmpty []) = true from rfl)] at h
      obtain ⟨fee, hfee, h⟩ := mmmResult_bind_ok h
      rw [u64_checked_sub_ok] at hfee
      obtain ⟨hle, rfl⟩ := hfee
      have hfpos : 0 < royalty - total0 := by
        have := hpos (royalty - total0) (by simp [proRataFees])
        exact this
      cases accounts with
      | nil => cases h
      | cons acct arest =>
        dsimp only at h
        by_cases haddr : c.address ≠ acct.key
        · rw [if_pos haddr] at h
          cases h
        · rw [if_neg haddr] at h
          have hkey : c.address = acct.key := not_not.mp haddr
          rw [if_pos hfpos] at h
          obtain ⟨lifted, hlift, h⟩ := mmmResult_bind_ok h
          rw [u64_checked_add_ok] at hlift
          obtain ⟨-, rfl⟩ := hlift
          have hfl : min_rent ≤ acct.lamports := hfloor acct (by simp)
          rw [if_pos (by omega)] at h
          obtain ⟨total1, htot1, h⟩ := mmmResult_bind_ok h
          rw [u64_checked_add_ok] at htot1
          obtain ⟨-, rfl⟩ := htot1
          simp only [pay_creator_fees_loop] at h
          cases h
          constructor
          · omega
          · simp [proRataFees, hkey]
    | cons c2 rest2 =>
      rw [if_neg (show ¬(List.isEmpty (c2 :: rest2)) = true by simp)] at h
      obtain ⟨prod, hprod, h⟩ := mmmResult_bind_ok h
      obtain ⟨q, hq, h⟩ := mmmResult_bind_ok h
      rw [u128_checked_mul_ok] at hprod
      obtain ⟨-, rfl⟩ := hprod
      rw [u128_checked_div_ok] at hq
      obtain ⟨-, rfl⟩ := hq
      obtain ⟨fee, hfee, h⟩ := mmmResult_bind_ok h
      have hfee' : fee = u64cast (royalty * c.share / 100) := by
        cases hfee
        rfl
      subst hfee'
      have hfpos : 0 < u64cast (royalty * c.share / 100) :=
        hpos _ (by simp [proRataFees])
      cases accounts with
      | nil => cases h
      | cons acct arest =>
        dsimp only at h
        by_cases haddr : c.address ≠ acct.key
        · rw [if_pos haddr] at h
          cases h
        · rw [if_neg haddr] at h
          have hkey : c.address = acct.key := not_not.mp haddr
          rw [if_pos hfpos] at h
          obtain ⟨lifted, hlift, h⟩ := mmmResult_bind_ok h
          rw [u64_checked_add_ok] at hlift
          obtain ⟨-, rfl⟩ := hlift
          have hfl : min_rent ≤ acct.lamports := hfloor acct (by simp)
          rw [if_pos (by omega)] at h
          obtain ⟨total1, htot1, h⟩ := mmmResult_bind_ok h
          rw [u64_checked_add_ok] at htot1
          obtain ⟨-, rfl⟩ := htot1
          have hih := ih arest
            (total0 + u64cast (royalty * c.share / 100))
            (txs0 ++ [⟨acct.key, u64cast (royalty * c.share / 100)⟩])
            total' txs' (List.cons_ne_nil c2 rest2)
            (fun a ha => hfloor a (List.mem_cons_of_mem acct ha))
          have hposrec :
              ∀ fee ∈ proRataFees royalty
                (total0 + u64cast (royalty * c.share / 100)) (c2 :: rest2),
                0 < fee := by
            intro fe hfe
            refine hpos fe ?_
            have hfees : proRataFees royalty total0 (c :: c2 :: rest2) =
                u64cast (royalty * c.share / 100) ::
                  proRataFees royalty
                    (total0 + u64cast (royalty * c.share / 100)) (c2 :: rest2) :=
              rfl
            rw [hfees]
            exact List.mem_cons_of_mem _ hfe
          obtain ⟨htot, htxs⟩ := hih hposrec h
          refine ⟨htot, ?_⟩
          rw [htxs]
          simp [proRataFees, hkey, List.append_assoc]

/-- The metadata used by the C6 witness: two verified creators with shares
    60 and 40. -/
def twoCreatorMeta : Metadata :=
  ⟨some [⟨1, true, 60⟩, ⟨2, true, 40⟩], 500, "u", none⟩

/-- C6: when pay_creator_fees_in_sol succeeds with a nonempty creator list
    and every payment clears the rent floor (each creator account already
    holds at least min_rent and every assigned fee is positive), each
    creator but the last is paid royalty * share / 100 (truncated), the last
    is paid exactly the remainder, and the returned total is exactly the
    royalty. -/
theorem pay_creator_fees_prorata_last_remainder
    (min_rent maxM bbp tp payerL mbp : Nat) (md : Metadata)
    (accounts : List CreatorAccount) (cs : List Creator)
    (total : Nat) (txs : List SolTransfer)
    (hcs : md.creators = some cs) (hne : cs ≠ [])
    (hfloor : ∀ a ∈ accounts, min_rent ≤ a.lamports)
    (hpos : ∀ fee ∈ proRataFees (royaltyAmount tp mbp bbp) 0 cs, 0 < fee)
    (htp : tp < U64_MOD) (hmbp : mbp < 2 ^ 16) (hbbp : bbp < 2 ^ 16)
    (h : pay_creator_fees_in_sol min_rent maxM bbp tp md accounts payerL mbp =
      .ok (total, txs)) :
    total = royaltyAmount tp mbp bbp ∧
    txs = List.zipWith (fun (c : Creator) fee => SolTransfer.mk c.address fee)
      cs (proRataFees (royaltyAmount tp mbp bbp) 0 cs) := by
  rw [pay_creator_fees_in_sol_eq min_rent maxM bbp tp payerL mbp md accounts
    htp hmbp hbbp] at h
  by_cases h0 : royaltyAmount tp mbp bbp = 0
  · exfalso
    rw [h0] at hpos
    rcases cs with - | ⟨c, rest⟩
    · exact hne rfl
    · rcases rest with - | ⟨c2, rest2⟩
      · exact absurd (hpos 0 (by simp [proRataFees])) (by omega)
      · exact absurd (hpos 0 (by simp [proRataFees, u64cast])) (by omega)
  · rw [if_neg h0, hcs] at h
    dsimp only at h
    by_cases hpay : payerL < royaltyAmount tp mbp bbp
    · rw [if_pos hpay] at h
      cases h
    · rw [if_neg hpay] at h
      by_cases hceil : maxM < md.seller_fee_basis_points
      · rw [if_pos hceil] at h
        cases h
      · rw [if_neg hceil] at h
        obtain ⟨ht, htx⟩ := pay_creator_fees_loop_spec
          (royaltyAmount tp mbp bbp) min_rent cs accounts 0 [] total txs
          hne hfloor hpos h
        exact ⟨ht, by simpa using htx⟩

/-- Witness for C6: with royalty 1000 over creators with shares [60, 40],
    the first creator is paid 600 and the second exactly the remainder 400,
    and the returned total is exactly 1000. -/
theorem pay_creator_fees_prorata_last_remainder_witness :
    pay_creator_fees_in_sol 0 5000 10000 1000 twoCreatorMeta
      [⟨1, 7⟩, ⟨2, 7⟩] 1000 10000 = .ok (1000, [⟨1, 600⟩, ⟨2, 400⟩]) ∧
    1000 = royaltyAmount 1000 10000 10000 ∧
    ([⟨1, 600⟩, ⟨2, 400⟩] : List SolTransfer) = List.zipWith
      (fun (c : Creator) fee => SolTransfer.mk c.address fee)
      [⟨1, true, 60⟩, ⟨2, true, 40⟩]
      (proRataFees (royaltyAmount 1000 10000 10000) 0
        [⟨1, true, 60⟩, ⟨2, true, 40⟩]) := by
  have h := pay_creator_fees_prorata_last_remainder 0 5000 10000 1000 1000
    10000 twoCreatorMeta [⟨1, 7⟩, ⟨2, 7⟩] [⟨1, true, 60⟩, ⟨2, true, 40⟩]
    1000 [⟨1, 600⟩, ⟨2, 400⟩] rfl (by decide) (by decide) (by decide)
    (by decide) (by decide) (by decide) (by decide)
  exact ⟨by decide, h.1, h.2⟩
